import Mathlib

/-!
# Office-Hours: slot generation, booking, directory filter, profile editor

A shallow embedding of the client-side logic of the Office-Hours application:

* `getAvailableSolts` and `bookAppointment` of `frontend-user/src/pages/Appointment.jsx`,
* `applyFilter` of `frontend-user/src/pages/Professors.jsx`,
* `updateProfile` of `frontend-admin/src/pages/Professor/ProfessorProfile.jsx`.

A JavaScript `Date` object is represented by its time value, an integer number of
milliseconds.  All `Date` methods used by the source work on local time; the time
values below are local time values (ECMA-262 `LocalTime(t)`) of a zone whose offset
is constant over the week that is looked at, so that local-time field arithmetic is
plain integer arithmetic.  Every `new Date()` executed during one run of
`getAvailableSolts` reads the same instant `today`.  Time values are unbounded integers:
the limit of 8.64e15 milliseconds on either side of the epoch is not modelled.
-/

namespace OfficeHours

/-! ## ECMA-262 time values (section "Date Objects", abstract operations) -/

def msPerDay : Int := 86400000
def msPerHour : Int := 3600000
def msPerMinute : Int := 60000
def msPerSecond : Int := 1000

/-- Day number of a time value: `floor(t / msPerDay)`. -/
def Day (t : Int) : Int := t / msPerDay

/-- Milliseconds since the start of the day: `t modulo msPerDay`. -/
def TimeWithinDay (t : Int) : Int := t % msPerDay

/-- Number of days of year `y` in the proleptic Gregorian calendar. -/
def DaysInYear (y : Int) : Int :=
  if y % 4 ≠ 0 then 365
  else if y % 100 ≠ 0 then 366
  else if y % 400 ≠ 0 then 365
  else 366

/-- Day number of the first day of year `y`. -/
def DayFromYear (y : Int) : Int :=
  365 * (y - 1970) + (y - 1969) / 4 - (y - 1901) / 100 + (y - 1601) / 400

/-- The year of a day number: the largest `y` with `DayFromYear y ≤ d`, computed from
an estimate that is off by at most one (see `YearFromDay_spec`). -/
def YearFromDay (d : Int) : Int :=
  let y := 1970 + (d * 400) / 146097
  if DayFromYear (y + 1) ≤ d then y + 1
  else if DayFromYear y ≤ d then y
  else y - 1

/-- The year a time value falls in: the largest `y` with `TimeFromYear y ≤ t`. -/
def YearFromTime (t : Int) : Int := YearFromDay (Day t)

/-- One for a time in a leap year, zero otherwise. -/
def InLeapYear (t : Int) : Int :=
  if DaysInYear (YearFromTime t) = 366 then 1 else 0

def DayWithinYear (t : Int) : Int := Day t - DayFromYear (YearFromTime t)

/-- Day within the year on which month `m` (0 = January) starts; `l` is the leap flag. -/
def monthStart (m : Int) (l : Int) : Int :=
  if m = 0 then 0
  else if m = 1 then 31
  else if m = 2 then 59 + l
  else if m = 3 then 90 + l
  else if m = 4 then 120 + l
  else if m = 5 then 151 + l
  else if m = 6 then 181 + l
  else if m = 7 then 212 + l
  else if m = 8 then 243 + l
  else if m = 9 then 273 + l
  else if m = 10 then 304 + l
  else 334 + l

/-- Month number (0 = January .. 11 = December) of day `d` within a year; `l` is the
leap flag. -/
def monthOfYearDay (d : Int) (l : Int) : Int :=
  if d < 31 then 0
  else if d < 59 + l then 1
  else if d < 90 + l then 2
  else if d < 120 + l then 3
  else if d < 151 + l then 4
  else if d < 181 + l then 5
  else if d < 212 + l then 6
  else if d < 243 + l then 7
  else if d < 273 + l then 8
  else if d < 304 + l then 9
  else if d < 334 + l then 10
  else 11

/-- Month number of a time value, 0 = January .. 11 = December. -/
def MonthFromTime (t : Int) : Int :=
  monthOfYearDay (DayWithinYear t) (InLeapYear t)

/-- Day of the month of a time value, 1 .. 31. -/
def DateFromTime (t : Int) : Int :=
  DayWithinYear t - monthStart (MonthFromTime t) (InLeapYear t) + 1

/-- Day of the week of a time value, 0 = Sunday .. 6 = Saturday. -/
def WeekDay (t : Int) : Int := (Day t + 4) % 7

def HourFromTime (t : Int) : Int := (t / msPerHour) % 24
def MinFromTime (t : Int) : Int := (t / msPerMinute) % 60
def SecFromTime (t : Int) : Int := (t / msPerSecond) % 60
def msFromTime (t : Int) : Int := t % msPerSecond

def MakeTime (hour min sec ms : Int) : Int :=
  hour * msPerHour + min * msPerMinute + sec * msPerSecond + ms

/-- Day number of the given year, month and day of month; month and date may lie
outside their usual ranges and carry over. -/
def MakeDay (year month date : Int) : Int :=
  let ym := year + month / 12
  let mn := month % 12
  DayFromYear ym + monthStart mn (if DaysInYear ym = 366 then 1 else 0) + date - 1

def MakeDate (day time : Int) : Int := day * msPerDay + time

/-! ## `Date.prototype` methods used by the source -/

def getDate (t : Int) : Int := DateFromTime t
def getDay (t : Int) : Int := WeekDay t
def getMonth (t : Int) : Int := MonthFromTime t
def getFullYear (t : Int) : Int := YearFromTime t
def getHours (t : Int) : Int := HourFromTime t
def getMinutes (t : Int) : Int := MinFromTime t

/-- The time value after `d.setDate(dt)`. -/
def setDate (t : Int) (dt : Int) : Int :=
  MakeDate (MakeDay (YearFromTime t) (MonthFromTime t) dt) (TimeWithinDay t)

/-- The time value after `d.setHours(h, m, s, ms)`. -/
def setHours (t : Int) (h m s ms : Int) : Int :=
  MakeDate (Day t) (MakeTime h m s ms)

/-- The time value after `d.setMinutes(m)`. -/
def setMinutes (t : Int) (m : Int) : Int :=
  MakeDate (Day t) (MakeTime (HourFromTime t) m (SecFromTime t) (msFromTime t))

/-- Two-digit rendering of an hour or minute field. -/
def pad2 (n : Int) : String :=
  if n < 10 then "0" ++ toString n else toString n

/-- The string `d.toLocaleTimeString([], { hour: '2-digit', minute: '2-digit' })` in the
12-hour locale the application is written for: `hh:mm AM` or `hh:mm PM`. -/
def toLocaleTimeString (t : Int) : String :=
  let h := HourFromTime t
  let h12 := if h % 12 = 0 then 12 else h % 12
  pad2 h12 ++ ":" ++ pad2 (MinFromTime t) ++ (if h < 12 then " AM" else " PM")

/-! ## Appointment.jsx -/

/-- A slot as pushed by `getAvailableSolts`: `{ datetime, time }`. -/
structure Slot where
  datetime : Int
  time : String
deriving DecidableEq, Repr

/-- The object `profInfo.slots_booked`: date key to list of booked time strings. -/
abbrev SlotsBooked := List (String × List String)

/-- The date key built inside the slot loop: `day + "_" + month + "_" + year` with
`month = getMonth() + 1`. -/
def generatorSlotDate (currentDate : Int) : String :=
  let day := getDate currentDate
  let month := getMonth currentDate + 1
  let year := getFullYear currentDate
  toString day ++ "_" ++ toString month ++ "_" ++ toString year

/-- The test `slots_booked[slotDate] && slots_booked[slotDate].includes(slotTime) ? false : true`. -/
def isSlotAvailable (slots_booked : SlotsBooked) (slotDate slotTime : String) : Bool :=
  match slots_booked.lookup slotDate with
  | some times => if times.contains slotTime then false else true
  | none => true

/-- The `while (currentDate < endTime)` loop of `getAvailableSolts`. -/
def slotLoop (slots_booked : SlotsBooked) (endTime : Int) (currentDate : Int)
    (timeSlots : List Slot) : List Slot :=
  if currentDate < endTime then
    let formattedTime := toLocaleTimeString currentDate
    let slotDate := generatorSlotDate currentDate
    let slotTime := formattedTime
    let timeSlots :=
      if isSlotAvailable slots_booked slotDate slotTime then
        timeSlots ++ [{ datetime := currentDate, time := formattedTime }]
      else timeSlots
    slotLoop slots_booked endTime (setMinutes currentDate (getMinutes currentDate + 30)) timeSlots
  else timeSlots
termination_by (endTime - currentDate).toNat
decreasing_by
  simp only [setMinutes, getMinutes, MakeDate, MakeTime, Day, HourFromTime, MinFromTime,
    SecFromTime, msFromTime, msPerDay, msPerHour, msPerMinute, msPerSecond]
  omega

/-- The array `timeSlots` built by the body of `for (let i = 0; i < 7; i++)` for a day
offset `i` that is not skipped: window end, window start, then the slot loop. -/
def dayBucket (today : Int) (slots_booked : SlotsBooked) (i : Int) : List Slot :=
  let currentDate := setDate today (getDate today + i)
  let endTime := setHours (setDate today (getDate today + i)) 18 0 0 0
  let currentDate :=
    if getDate today = getDate currentDate then
      if getHours currentDate < 8 then setHours currentDate 8 0 0 0
      else setHours currentDate (getHours currentDate) (getMinutes currentDate) 0 0
    else setHours currentDate 8 0 0 0
  slotLoop slots_booked endTime currentDate []

/-- One pass of the body of `for (let i = 0; i < 7; i++)`: the value of `profSlots`
after the pass for day offset `i` (`continue` on Saturday and Sunday, otherwise the
day's `timeSlots` is appended). -/
def dayStep (today : Int) (slots_booked : SlotsBooked) (profSlots : List (List Slot))
    (i : Int) : List (List Slot) :=
  let currentDate := setDate today (getDate today + i)
  let dayOfWeek := getDay currentDate
  if dayOfWeek = 0 ∨ dayOfWeek = 6 then profSlots
  else profSlots ++ [dayBucket today slots_booked i]

/-- The value of `profSlots` after `getAvailableSolts()` ran at instant `today` for a
professor whose booked-slots map is `slots_booked`. -/
def getAvailableSolts (today : Int) (slots_booked : SlotsBooked) : List (List Slot) :=
  [0, 1, 2, 3, 4, 5, 6].foldl (dayStep today slots_booked) []

/-! ## Effects of the event handlers

The handlers `bookAppointment` and `updateProfile` act on the outside world only through
the calls listed here; a handler run is described by the list of calls it makes, in
order, together with the component state it leaves. -/

/-- An observable call made by a handler. -/
inductive Effect where
  | toastWarning (message : String)
  | toastSuccess (message : String)
  | toastError (message : String)
  | consoleLog (message : String)
  | navigate (path : String)
  | postBookAppointment (url profId slotDate slotTime token : String)
  | postUpdateProfile (url about : String) (available : Bool) (dToken : String)
  | getProfessorsData
  | getProfileData
deriving DecidableEq, Repr

/-- How an awaited `axios.post` ends: with a response body `{ success, message }`, or by
throwing an error that carries a message. -/
inductive PostOutcome where
  | response (success : Bool) (message : String)
  | throws (message : String)
deriving DecidableEq, Repr

/-- JavaScript truthiness of a value that is either absent (`none`: `undefined`, `null`,
`false`) or a string; the empty string is falsy. -/
def truthy (v : Option String) : Bool :=
  match v with
  | none => false
  | some s => !(s == "")

/-- The date key built by `bookAppointment`: `day + "_" + month + "_" + year` with
`month = getMonth()`. -/
def submitterSlotDate (date : Int) : String :=
  let day := getDate date
  let month := getMonth date
  let year := getFullYear date
  toString day ++ "_" ++ toString month ++ "_" ++ toString year

/-- One run of `bookAppointment`.  `.error` is the uncaught `TypeError` raised by
`profSlots[slotIndex][0].datetime`, which is evaluated outside the `try` block; `.ok`
carries the calls made, in order.  `reply` is how the awaited request ends if it is
sent. -/
def bookAppointment (token : Option String) (backendUrl profId : String)
    (profSlots : List (List Slot)) (slotIndex : Nat) (slotTime : String)
    (reply : PostOutcome) : Except String (List Effect) :=
  if truthy token = false then
    .ok [.toastWarning "Login to book appointment", .navigate "/login"]
  else
    match profSlots[slotIndex]? with
    | none => .error "TypeError"
    | some bucket =>
      match bucket[0]? with
      | none => .error "TypeError"
      | some first =>
        let date := first.datetime
        let slotDate := submitterSlotDate date
        let request := Effect.postBookAppointment (backendUrl ++ "/api/user/book-appointment")
          profId slotDate slotTime (token.getD "")
        match reply with
        | .response true message =>
          .ok [request, .toastSuccess message, .getProfessorsData, .navigate "/my-appointments"]
        | .response false message => .ok [request, .toastError message]
        | .throws message => .ok [request, .consoleLog message, .toastError message]

/-! ## Professors.jsx -/

/-- A professor document (`backend/models/professorModel.js`), with its `_id`. -/
structure Professor where
  _id : String
  name : String
  email : String
  password : String
  image : String
  department : String
  about : String
  available : Bool
  slots_booked : SlotsBooked
  date : Nat
deriving DecidableEq, Repr

/-- The value `applyFilter` stores in `filterProf`; `department` is the route parameter
(`none` when the route has none). -/
def applyFilter (professors : List Professor) (department : Option String) : List Professor :=
  if truthy department then
    professors.filter (fun prof => decide (some prof.department = department))
  else professors

/-! ## ProfessorProfile.jsx -/

/-- The profile fields the editor reads and edits. -/
structure ProfileData where
  about : String
  available : Bool
deriving DecidableEq, Repr

/-- State of the profile page: the `isEdit` flag (`true` = Edit, `false` = View) and the
cached `profileData`. -/
structure EditorState where
  isEdit : Bool
  profileData : ProfileData
deriving DecidableEq, Repr

/-- One run of `updateProfile` (Save): the state it leaves and the calls it makes. -/
def updateProfile (backendUrl dToken : String) (st : EditorState) (reply : PostOutcome) :
    EditorState × List Effect :=
  let request := Effect.postUpdateProfile (backendUrl ++ "/api/professor/update-profile")
    st.profileData.about st.profileData.available dToken
  match reply with
  | .response true message =>
    ({ st with isEdit := false }, [request, .toastSuccess message, .getProfileData])
  | .response false message =>
    ({ st with isEdit := false }, [request, .toastError message])
  | .throws message =>
    (st, [request, .toastError message, .consoleLog message])

/-! ## Auxiliary definitions for stating what the slot loop computes -/

/-- The instants `start, start + 30 min, ...`, `n` of them. -/
def stepInstants (start : Int) : Nat → List Int
  | 0 => []
  | n + 1 => start :: stepInstants (start + 1800000) n

/-- Number of passes of `while (currentDate < endTime)` when each pass adds 30 minutes. -/
def stepCount (currentDate endTime : Int) : Nat :=
  ((endTime - currentDate + 1799999) / 1800000).toNat

/-- The slot object the loop builds at instant `t`. -/
def slotAt (t : Int) : Slot := { datetime := t, time := toLocaleTimeString t }

/-- The loop's availability test at instant `t`. -/
def offered (slots_booked : SlotsBooked) (t : Int) : Bool :=
  isSlotAvailable slots_booked (generatorSlotDate t) (toLocaleTimeString t)

/-- The twenty display times of a full day, 08:00 up to 17:30. -/
def halfHourTimes : List String :=
  ["08:00 AM", "08:30 AM", "09:00 AM", "09:30 AM", "10:00 AM", "10:30 AM", "11:00 AM",
   "11:30 AM", "12:00 PM", "12:30 PM", "01:00 PM", "01:30 PM", "02:00 PM", "02:30 PM",
   "03:00 PM", "03:30 PM", "04:00 PM", "04:30 PM", "05:00 PM", "05:30 PM"]

/-- The twenty slots of a full day whose midnight is the time value `midnight`. -/
def fullDaySlots (midnight : Int) : List Slot :=
  List.zipWith Slot.mk (stepInstants (midnight + 8 * msPerHour) 20) halfHourTimes

/-- The day offsets of the seven-day window that are not skipped as weekend days. -/
def weekdayOffsets (today : Int) : List Int :=
  [0, 1, 2, 3, 4, 5, 6].filter
    (fun i => decide (¬ (getDay (today + i * msPerDay) = 0 ∨ getDay (today + i * msPerDay) = 6)))

/-! ## The booking write -/

/-- Modelled from the spec: the backend's booking write, which is not among the source
files.  A booking is an insertion into the booked-slots map: the time string is appended
to the list stored under the date key, and the entry is created when the key is new. -/
def insertBooked (slots_booked : SlotsBooked) (slotDate slotTime : String) : SlotsBooked :=
  match slots_booked with
  | [] => [(slotDate, [slotTime])]
  | (key, times) :: rest =>
    if key = slotDate then (key, times ++ [slotTime]) :: rest
    else (key, times) :: insertBooked rest slotDate slotTime

/-! ## Calendar arithmetic -/

theorem setMinutes_add_thirty (t : Int) : setMinutes t (getMinutes t + 30) = t + 1800000 := by
  simp only [setMinutes, getMinutes, MakeDate, MakeTime, Day, HourFromTime, MinFromTime,
    SecFromTime, msFromTime, msPerDay, msPerHour, msPerMinute, msPerSecond]
  omega

theorem DaysInYear_cases (y : Int) : DaysInYear y = 365 ∨ DaysInYear y = 366 := by
  unfold DaysInYear
  split_ifs <;> simp

theorem DayFromYear_succ (y : Int) : DayFromYear (y + 1) = DayFromYear y + DaysInYear y := by
  simp only [DayFromYear, DaysInYear]
  split_ifs <;> omega

theorem DayFromYear_bounds (y : Int) :
    146097 * (y - 1970) - 506 ≤ 400 * DayFromYear y ∧
      400 * DayFromYear y ≤ 146097 * (y - 1970) + 589 := by
  simp only [DayFromYear]
  omega

theorem DayFromYear_lt {a b : Int} (h : a < b) : DayFromYear a < DayFromYear b := by
  rcases (by omega : b = a + 1 ∨ a + 2 ≤ b) with rfl | h2
  · rw [DayFromYear_succ]
    rcases DaysInYear_cases a with h | h <;> omega
  · have ha := DayFromYear_bounds a
    have hb := DayFromYear_bounds b
    omega

theorem DayFromYear_le {a b : Int} (h : a ≤ b) : DayFromYear a ≤ DayFromYear b := by
  rcases (by omega : a = b ∨ a < b) with rfl | h2
  · exact le_refl _
  · exact le_of_lt (DayFromYear_lt h2)

theorem YearFromDay_spec (d : Int) :
    DayFromYear (YearFromDay d) ≤ d ∧ d < DayFromYear (YearFromDay d + 1) := by
  unfold YearFromDay
  have hq : 146097 * (d * 400 / 146097) ≤ d * 400 ∧ d * 400 < 146097 * (d * 400 / 146097) + 146097 := by
    omega
  generalize d * 400 / 146097 = a at hq
  have h0 := DayFromYear_bounds (1970 + a - 1)
  have h2 := DayFromYear_bounds (1970 + a + 1 + 1)
  have e : 1970 + a - 1 + 1 = 1970 + a := by ring
  simp only
  split_ifs with c1 c2
  · exact ⟨c1, by omega⟩
  · exact ⟨c2, by omega⟩
  · rw [e]; exact ⟨by omega, by omega⟩

theorem YearFromDay_unique {d y : Int} (h1 : DayFromYear y ≤ d) (h2 : d < DayFromYear (y + 1)) :
    YearFromDay d = y := by
  have h := YearFromDay_spec d
  rcases lt_trichotomy (YearFromDay d) y with c | c | c
  · have := DayFromYear_le (show YearFromDay d + 1 ≤ y by omega)
    omega
  · exact c
  · have := DayFromYear_le (show y + 1 ≤ YearFromDay d by omega)
    omega

theorem Day_add_days (t i : Int) : Day (t + i * msPerDay) = Day t + i := by
  simp only [Day, msPerDay]; omega

theorem WeekDay_add_days (t i : Int) : WeekDay (t + i * msPerDay) = (WeekDay t + i) % 7 := by
  simp only [WeekDay, Day_add_days]; omega

theorem InLeapYear_cases (t : Int) : InLeapYear t = 0 ∨ InLeapYear t = 1 := by
  unfold InLeapYear; split_ifs <;> simp

theorem InLeapYear_eq (t : Int) : InLeapYear t = DaysInYear (YearFromDay (Day t)) - 365 := by
  unfold InLeapYear YearFromTime
  rcases DaysInYear_cases (YearFromDay (Day t)) with c | c <;> rw [c] <;> decide

theorem DayWithinYear_bounds (t : Int) :
    0 ≤ DayWithinYear t ∧ DayWithinYear t < 365 + InLeapYear t := by
  have h := YearFromDay_spec (Day t)
  rw [DayFromYear_succ] at h
  rw [InLeapYear_eq]
  unfold DayWithinYear YearFromTime
  omega

theorem monthOfYearDay_cases (P : Int → Prop) (d l : Int)
    (h0 : d < 31 → P 0)
    (h1 : 31 ≤ d → d < 59 + l → P 1)
    (h2 : 59 + l ≤ d → d < 90 + l → P 2)
    (h3 : 90 + l ≤ d → d < 120 + l → P 3)
    (h4 : 120 + l ≤ d → d < 151 + l → P 4)
    (h5 : 151 + l ≤ d → d < 181 + l → P 5)
    (h6 : 181 + l ≤ d → d < 212 + l → P 6)
    (h7 : 212 + l ≤ d → d < 243 + l → P 7)
    (h8 : 243 + l ≤ d → d < 273 + l → P 8)
    (h9 : 273 + l ≤ d → d < 304 + l → P 9)
    (h10 : 304 + l ≤ d → d < 334 + l → P 10)
    (h11 : 334 + l ≤ d → P 11) : P (monthOfYearDay d l) := by
  unfold monthOfYearDay
  by_cases c0 : d < 31
  · rw [if_pos c0]; exact h0 c0
  rw [if_neg c0]
  by_cases c1 : d < 59 + l
  · rw [if_pos c1]; exact h1 (by omega) c1
  rw [if_neg c1]
  by_cases c2 : d < 90 + l
  · rw [if_pos c2]; exact h2 (by omega) c2
  rw [if_neg c2]
  by_cases c3 : d < 120 + l
  · rw [if_pos c3]; exact h3 (by omega) c3
  rw [if_neg c3]
  by_cases c4 : d < 151 + l
  · rw [if_pos c4]; exact h4 (by omega) c4
  rw [if_neg c4]
  by_cases c5 : d < 181 + l
  · rw [if_pos c5]; exact h5 (by omega) c5
  rw [if_neg c5]
  by_cases c6 : d < 212 + l
  · rw [if_pos c6]; exact h6 (by omega) c6
  rw [if_neg c6]
  by_cases c7 : d < 243 + l
  · rw [if_pos c7]; exact h7 (by omega) c7
  rw [if_neg c7]
  by_cases c8 : d < 273 + l
  · rw [if_pos c8]; exact h8 (by omega) c8
  rw [if_neg c8]
  by_cases c9 : d < 304 + l
  · rw [if_pos c9]; exact h9 (by omega) c9
  rw [if_neg c9]
  by_cases c10 : d < 334 + l
  · rw [if_pos c10]; exact h10 (by omega) c10
  rw [if_neg c10]
  exact h11 (by omega)

theorem monthStart_cases (P : Int → Prop) (m l : Int)
    (h0 : m = 0 → P (0))
    (h1 : m = 1 → P (31))
    (h2 : m = 2 → P (59 + l))
    (h3 : m = 3 → P (90 + l))
    (h4 : m = 4 → P (120 + l))
    (h5 : m = 5 → P (151 + l))
    (h6 : m = 6 → P (181 + l))
    (h7 : m = 7 → P (212 + l))
    (h8 : m = 8 → P (243 + l))
    (h9 : m = 9 → P (273 + l))
    (h10 : m = 10 → P (304 + l))
    (h11 : P (334 + l)) : P (monthStart m l) := by
  unfold monthStart
  by_cases c0 : m = 0
  · rw [if_pos c0]; exact h0 c0
  rw [if_neg c0]
  by_cases c1 : m = 1
  · rw [if_pos c1]; exact h1 c1
  rw [if_neg c1]
  by_cases c2 : m = 2
  · rw [if_pos c2]; exact h2 c2
  rw [if_neg c2]
  by_cases c3 : m = 3
  · rw [if_pos c3]; exact h3 c3
  rw [if_neg c3]
  by_cases c4 : m = 4
  · rw [if_pos c4]; exact h4 c4
  rw [if_neg c4]
  by_cases c5 : m = 5
  · rw [if_pos c5]; exact h5 c5
  rw [if_neg c5]
  by_cases c6 : m = 6
  · rw [if_pos c6]; exact h6 c6
  rw [if_neg c6]
  by_cases c7 : m = 7
  · rw [if_pos c7]; exact h7 c7
  rw [if_neg c7]
  by_cases c8 : m = 8
  · rw [if_pos c8]; exact h8 c8
  rw [if_neg c8]
  by_cases c9 : m = 9
  · rw [if_pos c9]; exact h9 c9
  rw [if_neg c9]
  by_cases c10 : m = 10
  · rw [if_pos c10]; exact h10 c10
  rw [if_neg c10]
  exact h11

theorem monthOfYearDay_range (d l : Int) : 0 ≤ monthOfYearDay d l ∧ monthOfYearDay d l ≤ 11 := by
  apply monthOfYearDay_cases (fun m => 0 ≤ m ∧ m ≤ 11) <;> intros <;> omega

theorem MonthFromTime_range (t : Int) : 0 ≤ MonthFromTime t ∧ MonthFromTime t ≤ 11 :=
  monthOfYearDay_range _ _

theorem monthStart_bounds (m l : Int) (hl : l = 0 ∨ l = 1) :
    0 ≤ monthStart m l ∧ monthStart m l ≤ 334 + l := by
  apply monthStart_cases (fun s => 0 ≤ s ∧ s ≤ 334 + l) <;> intros <;> omega

theorem monthStart_diff (m m2 l : Int) (hl : l = 0 ∨ l = 1) (i : Int) (h1 : 1 ≤ i) (h6 : i ≤ 6) :
    monthStart m2 l - monthStart m l ≠ i := by
  apply monthStart_cases (fun s => s - monthStart m l ≠ i) <;> intros <;>
    apply monthStart_cases (fun s => _ - s ≠ i) <;> intros <;> omega

theorem monthStart_le_day (d l : Int) (hl : l = 0 ∨ l = 1) (h0 : 0 ≤ d) (h1 : d < 365 + l) :
    monthStart (monthOfYearDay d l) l ≤ d ∧ d < monthStart (monthOfYearDay d l) l + 31 := by
  apply monthOfYearDay_cases (fun m => monthStart m l ≤ d ∧ d < monthStart m l + 31) <;>
    intros <;> simp only [monthStart] <;> norm_num <;> omega

theorem DateFromTime_range (t : Int) : 1 ≤ DateFromTime t ∧ DateFromTime t ≤ 31 := by
  have hb := DayWithinYear_bounds t
  have h := monthStart_le_day (DayWithinYear t) (InLeapYear t) (InLeapYear_cases t) hb.1 hb.2
  unfold DateFromTime MonthFromTime
  omega

theorem MakeDay_of_month_range (y m d : Int) (h0 : 0 ≤ m) (h1 : m ≤ 11) :
    MakeDay y m d = DayFromYear y + monthStart m (if DaysInYear y = 366 then 1 else 0) + d - 1 := by
  have e1 : m / 12 = 0 := by omega
  have e2 : m % 12 = m := by omega
  simp only [MakeDay, e1, e2, add_zero]

theorem setDate_getDate_add (t i : Int) : setDate t (getDate t + i) = t + i * msPerDay := by
  have hm := MonthFromTime_range t
  unfold setDate getDate
  rw [MakeDay_of_month_range _ _ _ hm.1 hm.2]
  have hl : (if DaysInYear (YearFromTime t) = 366 then 1 else 0) = InLeapYear t := rfl
  rw [hl]
  unfold DateFromTime DayWithinYear MakeDate TimeWithinDay Day
  simp only [msPerDay]
  generalize monthStart (MonthFromTime t) (InLeapYear t) = ms
  generalize DayFromYear (YearFromTime t) = dy
  have : (dy + ms + (t / 86400000 - dy - ms + 1 + i) - 1) = t / 86400000 + i := by ring
  rw [this]
  omega

theorem getDate_add_days_ne (t i : Int) (h1 : 1 ≤ i) (h6 : i ≤ 6) :
    getDate (t + i * msPerDay) ≠ getDate t := by
  have hs := YearFromDay_spec (Day t)
  have hs2 := YearFromDay_spec (Day t + i)
  have hb := DayWithinYear_bounds t
  have hb2 := DayWithinYear_bounds (t + i * msPerDay)
  have hl := InLeapYear_cases t
  have hl2 := InLeapYear_cases (t + i * msPerDay)
  have hsucc := DayFromYear_succ (YearFromDay (Day t))
  have hdc := DaysInYear_cases (YearFromDay (Day t))
  have hyear : YearFromDay (Day t + i) = YearFromDay (Day t) ∨
      YearFromDay (Day t + i) = YearFromDay (Day t) + 1 := by
    by_cases c : Day t + i < DayFromYear (YearFromDay (Day t) + 1)
    · left; exact YearFromDay_unique (by omega) c
    · right
      have hsucc2 := DayFromYear_succ (YearFromDay (Day t) + 1)
      have hdc2 := DaysInYear_cases (YearFromDay (Day t) + 1)
      exact YearFromDay_unique (by omega) (by omega)
  rcases hyear with hy | hy
  · have hll : InLeapYear (t + i * msPerDay) = InLeapYear t := by
      simp only [InLeapYear, YearFromTime, Day_add_days, hy]
    have hww : DayWithinYear (t + i * msPerDay) = DayWithinYear t + i := by
      simp only [DayWithinYear, YearFromTime, Day_add_days, hy]; ring
    simp only [getDate, DateFromTime, MonthFromTime, hll, hww]
    have hd := monthStart_diff (monthOfYearDay (DayWithinYear t) (InLeapYear t))
      (monthOfYearDay (DayWithinYear t + i) (InLeapYear t)) (InLeapYear t) hl i h1 h6
    omega
  · have hww : DayWithinYear (t + i * msPerDay) =
        DayWithinYear t + i - DaysInYear (YearFromDay (Day t)) := by
      simp only [DayWithinYear, YearFromTime, Day_add_days, hy, hsucc]; ring
    have hle := InLeapYear_eq t
    have hm1 := monthStart_bounds (MonthFromTime t) (InLeapYear t) hl
    have hm2 := monthStart_bounds (MonthFromTime (t + i * msPerDay)) (InLeapYear (t + i * msPerDay)) hl2
    simp only [getDate, DateFromTime]
    rw [hww] at hb2 ⊢
    omega

/-! ## The slot loop and the day loop -/

theorem slotLoop_unfold (b : SlotsBooked) (e c : Int) (acc : List Slot) :
    slotLoop b e c acc =
      if c < e then
        slotLoop b e (c + 1800000) (if offered b c then acc ++ [slotAt c] else acc)
      else acc := by
  rw [slotLoop]
  simp only [setMinutes_add_thirty, offered, slotAt]

theorem stepCount_zero {c e : Int} (h : ¬ c < e) : stepCount c e = 0 := by
  unfold stepCount; omega

theorem stepCount_succ {c e : Int} (h : c < e) :
    stepCount c e = stepCount (c + 1800000) e + 1 := by
  unfold stepCount; omega

theorem slotLoop_eq (b : SlotsBooked) (e c : Int) (acc : List Slot) :
    slotLoop b e c acc =
      acc ++ ((stepInstants c (stepCount c e)).filter (offered b)).map slotAt := by
  generalize hn : stepCount c e = n
  induction n generalizing c acc with
  | zero =>
    have hc : ¬ c < e := by unfold stepCount at hn; omega
    rw [slotLoop_unfold, if_neg hc]; simp [stepInstants]
  | succ n ih =>
    have hc : c < e := by unfold stepCount at hn; omega
    have hn2 : stepCount (c + 1800000) e = n := by
      have := stepCount_succ hc; omega
    rw [slotLoop_unfold, if_pos hc, ih _ _ hn2]
    by_cases ho : offered b c <;> simp [stepInstants, List.filter, ho]

theorem mem_stepInstants {s t : Int} {n : Nat} (h : t ∈ stepInstants s n) :
    ∃ k : Nat, k < n ∧ t = s + 1800000 * k := by
  induction n generalizing s with
  | zero => simp [stepInstants] at h
  | succ n ih =>
    simp only [stepInstants, List.mem_cons] at h
    rcases h with rfl | h
    · exact ⟨0, by omega, by simp⟩
    · obtain ⟨k, hk, rfl⟩ := ih h
      exact ⟨k + 1, by omega, by push_cast; ring⟩

theorem mem_slotLoop {b : SlotsBooked} {e c : Int} {s : Slot} (h : s ∈ slotLoop b e c []) :
    offered b s.datetime = true ∧ s.time = toLocaleTimeString s.datetime ∧
      c ≤ s.datetime ∧ s.datetime < e ∧ ∃ k : Nat, s.datetime = c + 1800000 * k := by
  rw [slotLoop_eq] at h
  simp only [List.nil_append, List.mem_map, List.mem_filter] at h
  obtain ⟨t, ⟨ht, ho⟩, rfl⟩ := h
  obtain ⟨k, hk, rfl⟩ := mem_stepInstants ht
  refine ⟨ho, rfl, ?_, ?_, k, rfl⟩
  · simp only [slotAt]; omega
  · simp only [slotAt]; unfold stepCount at hk; omega

theorem foldl_dayStep (today : Int) (b : SlotsBooked) (l : List Int) (acc : List (List Slot)) :
    l.foldl (dayStep today b) acc =
      acc ++ (l.filter (fun i => decide (¬ (getDay (today + i * msPerDay) = 0 ∨
        getDay (today + i * msPerDay) = 6)))).map (dayBucket today b) := by
  induction l generalizing acc with
  | nil => simp
  | cons i l ih =>
    rw [List.foldl_cons, ih]
    by_cases hw : getDay (today + i * msPerDay) = 0 ∨ getDay (today + i * msPerDay) = 6
    · simp [dayStep, setDate_getDate_add, hw, List.filter]
    · simp [dayStep, setDate_getDate_add, hw, List.filter]

theorem getAvailableSolts_eq (today : Int) (b : SlotsBooked) :
    getAvailableSolts today b = (weekdayOffsets today).map (dayBucket today b) := by
  unfold getAvailableSolts weekdayOffsets
  rw [foldl_dayStep]; simp

theorem setHours_eq (t h m s ms : Int) :
    setHours t h m s ms = Day t * 86400000 + (h * 3600000 + m * 60000 + s * 1000 + ms) := by
  simp only [setHours, MakeDate, MakeTime, msPerDay, msPerHour, msPerMinute, msPerSecond]

theorem dayBucket_later (today : Int) (b : SlotsBooked) (i : Int) (h1 : 1 ≤ i) (h6 : i ≤ 6) :
    dayBucket today b i =
      slotLoop b ((Day today + i) * 86400000 + 64800000) ((Day today + i) * 86400000 + 28800000) [] := by
  have hne : ¬ getDate today = getDate (today + i * msPerDay) :=
    fun h => getDate_add_days_ne today i h1 h6 h.symm
  simp only [dayBucket, setDate_getDate_add, if_neg hne, setHours_eq, Day_add_days]
  norm_num

theorem dayBucket_today (today : Int) (b : SlotsBooked) :
    dayBucket today b 0 =
      slotLoop b (Day today * 86400000 + 64800000)
        (if getHours today < 8 then Day today * 86400000 + 28800000
         else today - today % 60000) [] := by
  have e0 : today + 0 * msPerDay = today := by simp
  have em : Day today * 86400000 + (getHours today * 3600000 + getMinutes today * 60000 + 0 * 1000 + 0)
      = today - today % 60000 := by
    simp only [getHours, getMinutes, HourFromTime, MinFromTime, Day, msPerDay, msPerHour, msPerMinute]
    omega
  simp only [dayBucket, setDate_getDate_add, e0, if_true, setHours_eq, em]
  norm_num

/-! ## A full day, 08:00 to 18:00 -/

theorem Day_midnight_add (D c : Int) (h0 : 0 ≤ c) (h1 : c < 86400000) :
    Day (D * 86400000 + c) = D := by
  simp only [Day, msPerDay]; omega

theorem generatorSlotDate_congr {t u : Int} (h : Day t = Day u) :
    generatorSlotDate t = generatorSlotDate u := by
  simp only [generatorSlotDate, getDate, getMonth, getFullYear, DateFromTime, MonthFromTime,
    DayWithinYear, InLeapYear, YearFromTime, h]

theorem toLocaleTimeString_midnight_add (D c : Int) :
    toLocaleTimeString (D * 86400000 + c) = toLocaleTimeString c := by
  have h1 : HourFromTime (D * 86400000 + c) = HourFromTime c := by
    simp only [HourFromTime, msPerHour]; omega
  have h2 : MinFromTime (D * 86400000 + c) = MinFromTime c := by
    simp only [MinFromTime, msPerMinute]; omega
  simp only [toLocaleTimeString, h1, h2]

theorem stepInstants_add (m c : Int) (n : Nat) :
    stepInstants (m + c) n = (stepInstants c n).map (fun x => m + x) := by
  induction n generalizing c with
  | zero => rfl
  | succ n ih => simp only [stepInstants, List.map_cons, add_assoc, ih]

theorem filter_offered_midnight (b : SlotsBooked) (D : Int) (u : Int) (hu : Day u = D)
    (ts : List Int) (h : ∀ c ∈ ts, 0 ≤ c ∧ c < 86400000) :
    ((ts.map (fun c => D * 86400000 + c)).filter (offered b)).map slotAt =
      (List.zipWith Slot.mk (ts.map (fun c => D * 86400000 + c)) (ts.map toLocaleTimeString)).filter
        (fun s => isSlotAvailable b (generatorSlotDate u) s.time) := by
  induction ts with
  | nil => rfl
  | cons c ts ih =>
    have hc := h c (List.mem_cons_self _ _)
    have hk : generatorSlotDate (D * 86400000 + c) = generatorSlotDate u :=
      generatorSlotDate_congr (by rw [Day_midnight_add D c hc.1 hc.2, hu])
    have ih2 := ih (fun x hx => h x (List.mem_cons_of_mem _ hx))
    simp only [List.map_cons, List.zipWith_cons_cons, List.filter_cons, offered, hk,
      toLocaleTimeString_midnight_add]
    by_cases ho : isSlotAvailable b (generatorSlotDate u) (toLocaleTimeString c) = true
    · simp only [ho, if_true, List.map_cons, slotAt, toLocaleTimeString_midnight_add]
      rw [← ih2]
    · simp only [ho, if_false]
      rw [← ih2]
      simp [offered]

theorem slotLoop_full_day (b : SlotsBooked) (D u : Int) (hu : Day u = D) :
    slotLoop b (D * 86400000 + 64800000) (D * 86400000 + 28800000) [] =
      (fullDaySlots (D * msPerDay)).filter
        (fun s => isSlotAvailable b (generatorSlotDate u) s.time) := by
  have hn : stepCount (D * 86400000 + 28800000) (D * 86400000 + 64800000) = 20 := by
    unfold stepCount; omega
  have hts : ∀ c ∈ stepInstants 28800000 20, 0 ≤ c ∧ c < 86400000 := by decide
  have hh : halfHourTimes = (stepInstants 28800000 20).map toLocaleTimeString := by decide
  rw [slotLoop_eq, hn, List.nil_append, stepInstants_add,
    filter_offered_midnight b D u hu _ hts]
  simp only [fullDaySlots, msPerDay, msPerHour]
  rw [show (8 : Int) * 3600000 = 28800000 by norm_num, stepInstants_add, hh]

theorem map_time_zipWith (ts : List Int) (ss : List String) (h : ts.length = ss.length)
    (p : String → Bool) :
    ((List.zipWith Slot.mk ts ss).filter (fun s => p s.time)).map Slot.time = ss.filter p := by
  induction ts generalizing ss with
  | nil =>
    cases ss with
    | nil => rfl
    | cons s ss => simp at h
  | cons t ts ih =>
    cases ss with
    | nil => simp at h
    | cons s ss =>
      have := ih ss (by simpa using h)
      by_cases hp : p s = true <;> simp [List.filter_cons, hp, this]

theorem length_stepInstants (c : Int) (n : Nat) : (stepInstants c n).length = n := by
  induction n generalizing c with
  | zero => rfl
  | succ n ih => simp [stepInstants, ih]

theorem mem_weekdayOffsets {today i : Int} (h : i ∈ weekdayOffsets today) :
    0 ≤ i ∧ i ≤ 6 ∧ ¬ (getDay (today + i * msPerDay) = 0 ∨ getDay (today + i * msPerDay) = 6) := by
  simp only [weekdayOffsets, List.mem_filter, decide_eq_true_eq] at h
  obtain ⟨hm, hw⟩ := h
  simp only [List.mem_cons, List.mem_singleton, List.not_mem_nil, or_false] at hm
  exact ⟨by omega, by omega, hw⟩

theorem dayBucket_full_day (today : Int) (b : SlotsBooked) (i : Int) (h0 : 0 ≤ i) (h6 : i ≤ 6)
    (hs : 1 ≤ i ∨ getHours today < 8) :
    dayBucket today b i =
      (fullDaySlots ((Day today + i) * msPerDay)).filter
        (fun s => isSlotAvailable b (generatorSlotDate (today + i * msPerDay)) s.time) := by
  rcases (by omega : i = 0 ∨ 1 ≤ i) with rfl | h1
  · have hh : getHours today < 8 := by omega
    rw [dayBucket_today, if_pos hh]
    have := slotLoop_full_day b (Day today) (today + 0 * msPerDay) (by simp)
    simpa using this
  · rw [dayBucket_later today b i h1 h6]
    exact slotLoop_full_day b (Day today + i) (today + i * msPerDay) (Day_add_days today i)

theorem isSlotAvailable_nil (k s : String) : isSlotAvailable [] k s = true := rfl

theorem offered_nil (t : Int) : offered [] t = true := rfl

theorem mem_getAvailableSolts {today : Int} {b : SlotsBooked} {bucket : List Slot}
    (h : bucket ∈ getAvailableSolts today b) :
    ∃ i, i ∈ weekdayOffsets today ∧ bucket = dayBucket today b i := by
  rw [getAvailableSolts_eq, List.mem_map] at h
  obtain ⟨i, hi, rfl⟩ := h
  exact ⟨i, hi, rfl⟩

theorem dayBucket_mem_getAvailableSolts {today : Int} (b : SlotsBooked) {i : Int}
    (h : i ∈ weekdayOffsets today) : dayBucket today b i ∈ getAvailableSolts today b := by
  rw [getAvailableSolts_eq]
  exact List.mem_map_of_mem _ h

theorem mem_dayBucket {today : Int} {b : SlotsBooked} {i : Int} {s : Slot}
    (h : s ∈ dayBucket today b i) :
    offered b s.datetime = true ∧ s.time = toLocaleTimeString s.datetime := by
  unfold dayBucket at h
  have := mem_slotLoop h
  exact ⟨this.1, this.2.1⟩

theorem mem_dayBucket_window {today : Int} {b : SlotsBooked} {i : Int} {s : Slot}
    (h0 : 0 ≤ i) (h6 : i ≤ 6) (h : s ∈ dayBucket today b i) :
    (Day today + i) * 86400000 + 28800000 ≤ s.datetime ∧
      s.datetime < (Day today + i) * 86400000 + 64800000 := by
  rcases (by omega : i = 0 ∨ 1 ≤ i) with rfl | h1
  · rw [dayBucket_today] at h
    obtain ⟨-, -, hc, he, -⟩ := mem_slotLoop h
    by_cases hh : getHours today < 8
    · rw [if_pos hh] at hc
      exact ⟨by omega, by omega⟩
    · rw [if_neg hh] at hc
      have h8 : Day today * 86400000 + 28800000 ≤ today - today % 60000 := by
        simp only [getHours, HourFromTime, msPerHour] at hh
        simp only [Day, msPerDay]
        omega
      exact ⟨by omega, by omega⟩
  · rw [dayBucket_later today b i h1 h6] at h
    obtain ⟨-, -, hc, he, -⟩ := mem_slotLoop h
    exact ⟨by omega, by omega⟩

theorem weekdayOffsets_head {today : Int} (h : (0 : Int) ∈ weekdayOffsets today) :
    ∃ rest, weekdayOffsets today = 0 :: rest := by
  have hw := (mem_weekdayOffsets h).2.2
  refine ⟨[1, 2, 3, 4, 5, 6].filter (fun i => decide (¬ (getDay (today + i * msPerDay) = 0 ∨
    getDay (today + i * msPerDay) = 6))), ?_⟩
  unfold weekdayOffsets
  rw [List.filter_cons, if_pos (by simpa using hw)]

theorem head_getAvailableSolts {today : Int} (b : SlotsBooked)
    (h : (0 : Int) ∈ weekdayOffsets today) :
    (getAvailableSolts today b).head? = some (dayBucket today b 0) := by
  obtain ⟨rest, hr⟩ := weekdayOffsets_head h
  rw [getAvailableSolts_eq, hr]; rfl

/-! ## The claims about the Slot Generator -/

/-- C1: a slot of an output bucket never carries a time string that the booked-slots map
lists under the date key the generator builds for that slot's own instant. -/
theorem booked_slot_never_offered (today : Int) (slots_booked : SlotsBooked)
    (bucket : List Slot) (slot : Slot) (times : List String)
    (hb : bucket ∈ getAvailableSolts today slots_booked) (hs : slot ∈ bucket)
    (hk : slots_booked.lookup (generatorSlotDate slot.datetime) = some times) :
    slot.time ∉ times := by
  obtain ⟨i, -, rfl⟩ := mem_getAvailableSolts hb
  obtain ⟨ho, ht⟩ := mem_dayBucket hs
  intro hmem
  rw [ht] at hmem
  simp [offered, isSlotAvailable, hk] at ho
  exact ho hmem

/-- Witness for C1: on June 3 2025 at 07:00 with 09:00 AM booked under `3_6_2025`, the
08:00 AM slot of today's bucket is offered and is not in the booked list. -/
theorem booked_slot_never_offered_witness :
    dayBucket 1748934000000 [("3_6_2025", ["09:00 AM"])] 0 ∈
        getAvailableSolts 1748934000000 [("3_6_2025", ["09:00 AM"])] ∧
      (⟨1748937600000, "08:00 AM"⟩ : Slot) ∈
        dayBucket 1748934000000 [("3_6_2025", ["09:00 AM"])] 0 ∧
      "08:00 AM" ∉ ["09:00 AM"] := by
  have hb : dayBucket 1748934000000 [("3_6_2025", ["09:00 AM"])] 0 ∈
      getAvailableSolts 1748934000000 [("3_6_2025", ["09:00 AM"])] :=
    dayBucket_mem_getAvailableSolts _ (by decide)
  have hs : (⟨1748937600000, "08:00 AM"⟩ : Slot) ∈
      dayBucket 1748934000000 [("3_6_2025", ["09:00 AM"])] 0 := by
    rw [dayBucket_full_day _ _ 0 (by decide) (by decide) (Or.inr (by decide))]
    decide
  exact ⟨hb, hs, booked_slot_never_offered 1748934000000 [("3_6_2025", ["09:00 AM"])] _
    ⟨1748937600000, "08:00 AM"⟩ ["09:00 AM"] hb hs (by decide)⟩

theorem datetime_mem_of_mem_zipWith {ts : List Int} {ss : List String} {s : Slot}
    (h : s ∈ List.zipWith Slot.mk ts ss) : s.datetime ∈ ts := by
  induction ts generalizing ss with
  | nil => simp at h
  | cons t ts ih =>
    cases ss with
    | nil => simp at h
    | cons x ss =>
      simp only [List.zipWith_cons_cons, List.mem_cons] at h
      rcases h with rfl | h
      · exact List.mem_cons_self _ _
      · exact List.mem_cons_of_mem _ (ih h)

theorem mem_fullDaySlots {m : Int} {s : Slot} (h : s ∈ fullDaySlots m) :
    m + 28800000 ≤ s.datetime ∧ s.datetime ≤ m + 63000000 := by
  unfold fullDaySlots at h
  obtain ⟨k, hk, hs⟩ := mem_stepInstants (datetime_mem_of_mem_zipWith h)
  rw [hs]
  simp only [msPerHour]
  omega

/-- C2: a weekday of the window whose start is 08:00 (a later day, or today before 8)
has as its bucket the twenty half-hour slots 08:00 AM .. 05:30 PM of that day, in order,
without those whose time string is booked under the day's key. -/
theorem full_day_bucket (today : Int) (slots_booked : SlotsBooked) (i : Int)
    (hi : i ∈ weekdayOffsets today) (hstart : 1 ≤ i ∨ getHours today < 8) :
    dayBucket today slots_booked i ∈ getAvailableSolts today slots_booked ∧
      dayBucket today slots_booked i =
        (fullDaySlots ((Day today + i) * msPerDay)).filter
          (fun s => isSlotAvailable slots_booked (generatorSlotDate (today + i * msPerDay)) s.time) ∧
      (dayBucket today slots_booked i).map Slot.time =
        halfHourTimes.filter
          (fun s => isSlotAvailable slots_booked (generatorSlotDate (today + i * msPerDay)) s) ∧
      (isSlotAvailable slots_booked (generatorSlotDate (today + i * msPerDay)) "08:00 AM" = true →
        (dayBucket today slots_booked i).head? =
          some ⟨(Day today + i) * msPerDay + 8 * msPerHour, "08:00 AM"⟩) ∧
      (∀ s ∈ dayBucket today slots_booked i,
        s.datetime ≤ (Day today + i) * msPerDay + 17 * msPerHour + 30 * msPerMinute ∧
        s.datetime < (Day today + i) * msPerDay + 18 * msPerHour) := by
  obtain ⟨h0, h6, -⟩ := mem_weekdayOffsets hi
  have he := dayBucket_full_day today slots_booked i h0 h6 hstart
  refine ⟨dayBucket_mem_getAvailableSolts _ hi, he, ?_, ?_, ?_⟩
  · rw [he]
    exact map_time_zipWith _ _ (by rw [length_stepInstants]; rfl) _
  · intro h8
    rw [he]
    have hf : fullDaySlots ((Day today + i) * msPerDay) =
        ⟨(Day today + i) * msPerDay + 8 * msPerHour, "08:00 AM"⟩ ::
          (fullDaySlots ((Day today + i) * msPerDay)).tail := rfl
    rw [hf, List.filter_cons, if_pos h8]
    rfl
  · intro s hs
    rw [he] at hs
    have := mem_fullDaySlots (List.mem_of_mem_filter hs)
    simp only [msPerDay, msPerHour, msPerMinute] at this ⊢
    omega

/-- Witness for C2: booked map `{"3_6_2025": ["09:00 AM"]}` on June 3 2025 at 07:00 gives
today the nineteen times 08:00 AM .. 05:30 PM without 09:00 AM. -/
theorem full_day_bucket_witness :
    (0 : Int) ∈ weekdayOffsets 1748934000000 ∧ getHours 1748934000000 = 7 ∧
      (dayBucket 1748934000000 [("3_6_2025", ["09:00 AM"])] 0).map Slot.time =
        ["08:00 AM", "08:30 AM", "09:30 AM", "10:00 AM", "10:30 AM", "11:00 AM", "11:30 AM",
         "12:00 PM", "12:30 PM", "01:00 PM", "01:30 PM", "02:00 PM", "02:30 PM", "03:00 PM",
         "03:30 PM", "04:00 PM", "04:30 PM", "05:00 PM", "05:30 PM"] := by
  refine ⟨by decide, by decide, ?_⟩
  rw [(full_day_bucket 1748934000000 [("3_6_2025", ["09:00 AM"])] 0 (by decide)
    (Or.inr (by decide))).2.2.1]
  decide

/-- C3, as stated, fails: on Tuesday June 3 2025 at 18:00 with an empty booked-slots map,
today is a weekday of the window and its bucket, the first of the output, is empty. -/
theorem today_bucket_empty_after_hours :
    (0 : Int) ∈ weekdayOffsets 1748973600000 ∧ getDay 1748973600000 = 2 ∧
      getHours 1748973600000 = 18 ∧ dayBucket 1748973600000 [] 0 = [] ∧
      (getAvailableSolts 1748973600000 []).head? = some [] := by
  have hw : (0 : Int) ∈ weekdayOffsets 1748973600000 := by decide
  have he : dayBucket 1748973600000 [] 0 = [] := by
    rw [dayBucket_today, slotLoop_eq]; decide
  refine ⟨hw, by decide, by decide, he, ?_⟩
  rw [head_getAvailableSolts [] hw, he]

theorem dayBucket_nil_today (today : Int) :
    dayBucket today [] 0 ≠ [] ↔ getHours today < 18 := by
  rw [dayBucket_today, slotLoop_eq, List.nil_append]
  by_cases hh : getHours today < 8
  · rw [if_pos hh]
    have hn : stepCount (Day today * 86400000 + 28800000) (Day today * 86400000 + 64800000) =
        19 + 1 := by unfold stepCount; omega
    rw [hn]
    simp only [stepInstants, List.filter_cons, offered_nil, if_true, List.map_cons]
    constructor
    · intro _; omega
    · intro _; simp
  · rw [if_neg hh]
    by_cases h18 : getHours today < 18
    · have hc : today - today % 60000 < Day today * 86400000 + 64800000 := by
        simp only [getHours, HourFromTime, msPerHour] at h18
        simp only [Day, msPerDay]; omega
      rw [stepCount_succ hc]
      simp only [stepInstants, List.filter_cons, offered_nil, if_true, List.map_cons]
      constructor
      · intro _; exact h18
      · intro _; simp
    · have hc : ¬ today - today % 60000 < Day today * 86400000 + 64800000 := by
        simp only [getHours, HourFromTime, msPerHour] at h18
        simp only [Day, msPerDay]; omega
      rw [stepCount_zero hc]
      simp only [stepInstants, List.filter_nil, List.map_nil]
      constructor
      · intro h; exact absurd rfl h
      · intro h; exact absurd h h18

/-- C3, amended: with an empty booked-slots map the output has one bucket per weekday
offset and none for a Saturday or Sunday; the bucket of every later day `now+1 .. now+6`
holds all twenty slots, and today's bucket is non-empty exactly when the local hour of
`now` is before 18. -/
theorem empty_map_buckets (today : Int) :
    getAvailableSolts today [] = (weekdayOffsets today).map (dayBucket today []) ∧
      (∀ i, 1 ≤ i → i ≤ 6 →
        dayBucket today [] i ≠ [] ∧ (dayBucket today [] i).map Slot.time = halfHourTimes) ∧
      (dayBucket today [] 0 ≠ [] ↔ getHours today < 18) := by
  refine ⟨getAvailableSolts_eq today [], ?_, dayBucket_nil_today today⟩
  intro i h1 h6
  have he := dayBucket_full_day today [] i (by omega) h6 (Or.inl h1)
  have hf : (fullDaySlots ((Day today + i) * msPerDay)).filter
      (fun s => isSlotAvailable [] (generatorSlotDate (today + i * msPerDay)) s.time) =
      fullDaySlots ((Day today + i) * msPerDay) := by
    apply List.filter_eq_self.mpr
    intro s _; rfl
  rw [he, hf]
  exact ⟨by simp [fullDaySlots, stepInstants, halfHourTimes], by
    simp [fullDaySlots, stepInstants, halfHourTimes]⟩

/-- Witness for C3 as amended: on June 3 2025 at 07:00 the bucket of the next day holds
the twenty times and today's bucket is non-empty. -/
theorem empty_map_buckets_witness :
    (dayBucket 1748934000000 [] 1).map Slot.time = halfHourTimes ∧
      dayBucket 1748934000000 [] 0 ≠ [] :=
  ⟨((empty_map_buckets 1748934000000).2.1 1 (by decide) (by decide)).2,
    (empty_map_buckets 1748934000000).2.2.mpr (by decide)⟩

theorem civil_congr {t u : Int} (h : Day t = Day u) :
    getDate t = getDate u ∧ getMonth t = getMonth u ∧ getFullYear t = getFullYear u := by
  simp only [getDate, getMonth, getFullYear, DateFromTime, MonthFromTime,
    DayWithinYear, InLeapYear, YearFromTime, h, and_self]

theorem Day_of_window {D t : Int} (h0 : D * 86400000 + 28800000 ≤ t)
    (h1 : t < D * 86400000 + 64800000) : Day t = D := by
  simp only [Day, msPerDay]; omega

/-- C4: the output is the list of day buckets of the offsets `0 .. 6` whose date
`now + i` days is not a Saturday or Sunday, in increasing order of the offset, and every
slot of the bucket of offset `i` lies on the calendar date of `now + i` days. -/
theorem buckets_follow_weekdays (today : Int) (slots_booked : SlotsBooked) :
    getAvailableSolts today slots_booked =
        (([0, 1, 2, 3, 4, 5, 6] : List Int).filter
          (fun i => decide (¬ (getDay (setDate today (getDate today + i)) = 0 ∨
            getDay (setDate today (getDate today + i)) = 6)))).map
          (dayBucket today slots_booked) ∧
      (∀ i : Int, setDate today (getDate today + i) = today + i * msPerDay) ∧
      (∀ i : Int, getDay (today + i * msPerDay) = (getDay today + i) % 7) ∧
      (∀ i : Int, 0 ≤ i → i ≤ 6 → ∀ s ∈ dayBucket today slots_booked i,
        Day s.datetime = Day today + i ∧
        getDate s.datetime = getDate (today + i * msPerDay) ∧
        getMonth s.datetime = getMonth (today + i * msPerDay) ∧
        getFullYear s.datetime = getFullYear (today + i * msPerDay) ∧
        getDay s.datetime = getDay (today + i * msPerDay)) := by
  refine ⟨?_, setDate_getDate_add today, WeekDay_add_days today, ?_⟩
  · rw [getAvailableSolts_eq]
    simp only [weekdayOffsets, setDate_getDate_add]
  · intro i h0 h6 s hs
    obtain ⟨hlo, hhi⟩ := mem_dayBucket_window h0 h6 hs
    have hd : Day s.datetime = Day (today + i * msPerDay) := by
      rw [Day_of_window hlo hhi, Day_add_days]
    obtain ⟨c1, c2, c3⟩ := civil_congr hd
    refine ⟨by rw [hd, Day_add_days], c1, c2, c3, ?_⟩
    simp only [getDay, WeekDay, hd]

/-- Witness for C4: from Thursday June 5 2025 at 07:00 the window holds the offsets
0, 1, 4, 5, 6 and the two weekend offsets give no bucket. -/
theorem buckets_follow_weekdays_witness :
    getAvailableSolts 1749106800000 [] =
      [dayBucket 1749106800000 [] 0, dayBucket 1749106800000 [] 1,
       dayBucket 1749106800000 [] 4, dayBucket 1749106800000 [] 5,
       dayBucket 1749106800000 [] 6] := by
  have hf : (([0, 1, 2, 3, 4, 5, 6] : List Int).filter
      (fun i => decide (¬ (getDay (setDate 1749106800000 (getDate 1749106800000 + i)) = 0 ∨
        getDay (setDate 1749106800000 (getDate 1749106800000 + i)) = 6)))) =
      [0, 1, 4, 5, 6] := by decide
  rw [(buckets_follow_weekdays 1749106800000 []).1, hf]
  rfl

/-- C5, as stated, fails: on Tuesday June 3 2025 at 09:17:30 with an empty booked-slots
map the first slot of today's bucket is at 09:17:00, thirty seconds before `now`. -/
theorem first_slot_before_now :
    (0 : Int) ∈ weekdayOffsets 1748942250000 ∧ getHours 1748942250000 = 9 ∧
      getMinutes 1748942250000 = 17 ∧
      (dayBucket 1748942250000 [] 0).head? = some ⟨1748942220000, "09:17 AM"⟩ ∧
      (getAvailableSolts 1748942250000 []).head? = some (dayBucket 1748942250000 [] 0) ∧
      (1748942220000 : Int) < 1748942250000 := by
  have hw : (0 : Int) ∈ weekdayOffsets 1748942250000 := by decide
  refine ⟨hw, by decide, by decide, ?_, head_getAvailableSolts [] hw, by decide⟩
  rw [dayBucket_today, slotLoop_eq]
  decide

/-- C5, amended: when `now` is on a weekday with local hour from 8 to 17 and the
booked-slots map is empty, today's bucket is the first of the output, its first slot is
at `now` with seconds and milliseconds zeroed (at most `now`, less than a minute before
it, and `now` itself when `now` is on a whole minute), and every other slot of the bucket
is later than `now`. -/
theorem today_first_slot (today : Int) (hw : (0 : Int) ∈ weekdayOffsets today)
    (h8 : 8 ≤ getHours today) (h18 : getHours today < 18) :
    ∃ rest : List Slot,
      (getAvailableSolts today []).head? = some (slotAt (today - today % msPerMinute) :: rest) ∧
      today - today % msPerMinute =
        setHours today (getHours today) (getMinutes today) 0 0 ∧
      today - today % msPerMinute ≤ today ∧
      today - msPerMinute < today - today % msPerMinute ∧
      (today % msPerMinute = 0 → (slotAt (today - today % msPerMinute)).datetime = today) ∧
      ∀ s ∈ rest, today < s.datetime := by
  have hh : ¬ getHours today < 8 := by omega
  have hc : today - today % 60000 < Day today * 86400000 + 64800000 := by
    simp only [getHours, HourFromTime, msPerHour] at h18
    simp only [Day, msPerDay]; omega
  have hb : dayBucket today [] 0 = slotAt (today - today % 60000) ::
      slotLoop [] (Day today * 86400000 + 64800000) (today - today % 60000 + 1800000) [] := by
    rw [dayBucket_today, if_neg hh, slotLoop_unfold, if_pos hc, offered_nil, if_pos rfl,
      slotLoop_eq, slotLoop_eq]
    simp
  refine ⟨_, by rw [head_getAvailableSolts [] hw, hb]; rfl, ?_, ?_, ?_, ?_, ?_⟩
  · rw [setHours_eq]
    simp only [getHours, getMinutes, HourFromTime, MinFromTime, Day, msPerDay, msPerHour,
      msPerMinute]
    omega
  · simp only [msPerMinute]; omega
  · simp only [msPerMinute]; omega
  · intro h0; simp only [slotAt, h0, sub_zero]
  · intro s hs
    have := (mem_slotLoop hs).2.2.1
    omega

/-- Witness for C5 as amended: on June 3 2025 at 09:17:30 the first slot of the output is
the 09:17 AM slot at 09:17:00. -/
theorem today_first_slot_witness :
    ∃ rest : List Slot,
      (getAvailableSolts 1748942250000 []).head? =
        some (⟨1748942220000, "09:17 AM"⟩ :: rest) ∧
      ∀ s ∈ rest, (1748942250000 : Int) < s.datetime := by
  obtain ⟨rest, h1, -, -, -, -, h6⟩ :=
    today_first_slot 1748942250000 (by decide) (by decide) (by decide)
  exact ⟨rest, h1, h6⟩

/-! ## The claims about the Booking Submitter -/

theorem toString_month_ne (m : Int) (h0 : 0 ≤ m) (h1 : m ≤ 11) :
    toString m ≠ toString (m + 1) := by
  interval_cases m <;> decide

theorem key_middle_cancel (a x y c : String)
    (h : a ++ "_" ++ x ++ "_" ++ c = a ++ "_" ++ y ++ "_" ++ c) : x = y := by
  have hd := congrArg String.data h
  simp only [String.data_append, List.append_assoc] at hd
  have h1 := List.append_cancel_left hd
  have h2 := List.append_cancel_left h1
  exact String.ext (List.append_cancel_right h2)

theorem submitterSlotDate_ne_generatorSlotDate (t : Int) :
    submitterSlotDate t ≠ generatorSlotDate t := by
  intro h
  simp only [submitterSlotDate, generatorSlotDate] at h
  have hm := MonthFromTime_range t
  exact toString_month_ne (getMonth t) hm.1 hm.2 (key_middle_cancel _ _ _ _ h)

/-- C6: with a credential and a non-empty selected bucket, the request carries the date
key `day_month_year` of the bucket's first slot with the month zero-indexed (January is
0) and nothing padded; the key the Slot Generator builds for the same instant has the
month field one greater, so the two keys differ for every instant. -/
theorem submitted_date_key (token : Option String) (backendUrl profId : String)
    (profSlots : List (List Slot)) (slotIndex : Nat) (slotTime : String) (reply : PostOutcome)
    (first : Slot) (rest : List Slot)
    (ht : truthy token = true) (hb : profSlots[slotIndex]? = some (first :: rest)) :
    (∃ effects : List Effect,
      bookAppointment token backendUrl profId profSlots slotIndex slotTime reply =
        .ok (Effect.postBookAppointment (backendUrl ++ "/api/user/book-appointment") profId
          (toString (getDate first.datetime) ++ "_" ++ toString (getMonth first.datetime) ++ "_" ++
            toString (getFullYear first.datetime)) slotTime (token.getD "") :: effects)) ∧
      (0 ≤ getMonth first.datetime ∧ getMonth first.datetime ≤ 11 ∧
        (DayWithinYear first.datetime < 31 → getMonth first.datetime = 0)) ∧
      generatorSlotDate first.datetime =
        toString (getDate first.datetime) ++ "_" ++ toString (getMonth first.datetime + 1) ++ "_" ++
          toString (getFullYear first.datetime) ∧
      (∀ t : Int, submitterSlotDate t ≠ generatorSlotDate t) := by
  have hm := MonthFromTime_range first.datetime
  refine ⟨?_, ⟨hm.1, hm.2, ?_⟩, rfl, submitterSlotDate_ne_generatorSlotDate⟩
  · cases reply with
    | response success message =>
      cases success
      · exact ⟨_, by simp [bookAppointment, ht, hb, submitterSlotDate]; rfl⟩
      · exact ⟨_, by simp [bookAppointment, ht, hb, submitterSlotDate]; rfl⟩
    | throws message =>
      exact ⟨_, by simp [bookAppointment, ht, hb, submitterSlotDate]; rfl⟩
  · intro hj
    simp only [getMonth, MonthFromTime, monthOfYearDay, if_pos hj]

/-- Witness for C6: booking the 08:00 AM slot of June 3 2025 submits the key `3_5_2025`,
while the generator's key for that instant is `3_6_2025`. -/
theorem submitted_date_key_witness :
    (∃ effects : List Effect,
      bookAppointment (some "tok") "http://localhost:4000" "prof1"
          [[⟨1748937600000, "08:00 AM"⟩, ⟨1748939400000, "08:30 AM"⟩]] 0 "08:00 AM"
          (.response true "Appointment Booked") =
        .ok (Effect.postBookAppointment "http://localhost:4000/api/user/book-appointment" "prof1"
          "3_5_2025" "08:00 AM" "tok" :: effects)) ∧
      generatorSlotDate 1748937600000 = "3_6_2025" := by
  have h := submitted_date_key (some "tok") "http://localhost:4000" "prof1"
    [[⟨1748937600000, "08:00 AM"⟩, ⟨1748939400000, "08:30 AM"⟩]] 0 "08:00 AM"
    (.response true "Appointment Booked") ⟨1748937600000, "08:00 AM"⟩
    [⟨1748939400000, "08:30 AM"⟩] (by decide) (by decide)
  obtain ⟨⟨effects, he⟩, -, hg, -⟩ := h
  refine ⟨⟨effects, ?_⟩, by decide⟩
  rw [he]
  have e1 : toString (getDate 1748937600000) ++ "_" ++ toString (getMonth 1748937600000) ++ "_" ++
      toString (getFullYear 1748937600000) = "3_5_2025" := by decide
  have e2 : "http://localhost:4000" ++ "/api/user/book-appointment" =
      "http://localhost:4000/api/user/book-appointment" := by decide
  simp only [e1, e2]
  rfl

/-- C7: without a credential (token absent or empty) `bookAppointment` only warns and
navigates to the login page: no request is sent and the professor list is not
refreshed, whatever the selected slot is. -/
theorem unauthenticated_booking (token : Option String) (backendUrl profId : String)
    (profSlots : List (List Slot)) (slotIndex : Nat) (slotTime : String) (reply : PostOutcome)
    (ht : truthy token = false) :
    ∃ effects : List Effect,
      bookAppointment token backendUrl profId profSlots slotIndex slotTime reply = .ok effects ∧
      effects = [.toastWarning "Login to book appointment", .navigate "/login"] ∧
      (∀ url pid d t k, Effect.postBookAppointment url pid d t k ∉ effects) ∧
      Effect.getProfessorsData ∉ effects := by
  refine ⟨_, by simp [bookAppointment, ht], rfl, ?_, ?_⟩
  · intro url pid d t k h
    simp at h
  · intro h
    simp at h

/-- Witness for C7: no token, nothing selectable. -/
theorem unauthenticated_booking_witness :
    bookAppointment none "http://localhost:4000" "prof1" [] 0 "" (.throws "Network Error") =
      .ok [.toastWarning "Login to book appointment", .navigate "/login"] := by
  obtain ⟨effects, h1, h2, -⟩ := unauthenticated_booking none "http://localhost:4000" "prof1"
    [] 0 "" (.throws "Network Error") (by decide)
  rw [h1, h2]

/-! ## The claim about the Professor Directory Filter -/

/-- C8: for a department string (non-empty; the empty string is falsy and counts as no
department) the filtered list is exactly the professors whose `department` equals it,
compared exactly, in their original relative order; with no department the list is
returned unchanged. -/
theorem applyFilter_spec (professors : List Professor) :
    (∀ department : String, department ≠ "" →
      applyFilter professors (some department) =
          professors.filter (fun prof => decide (prof.department = department)) ∧
        (applyFilter professors (some department)).Sublist professors ∧
        ∀ prof, prof ∈ applyFilter professors (some department) ↔
          prof ∈ professors ∧ prof.department = department) ∧
      applyFilter professors none = professors ∧
      applyFilter professors (some "") = professors := by
  refine ⟨?_, rfl, rfl⟩
  intro department hd
  have ht : truthy (some department) = true := by
    simp [truthy, hd]
  have he : applyFilter professors (some department) =
      professors.filter (fun prof => decide (prof.department = department)) := by
    simp only [applyFilter, ht, if_true, Option.some.injEq]
  refine ⟨he, ?_, ?_⟩
  · rw [he]; exact List.filter_sublist _
  · intro prof
    rw [he, List.mem_filter, decide_eq_true_eq]

/-- Witness for C8: filtering by "Math" keeps the two Math professors in their original
order and drops the Engineering professor and the one whose department is "math". -/
theorem applyFilter_spec_witness :
    applyFilter
        [⟨"1", "Ada", "ada@u.edu", "x", "a.png", "Math", "", true, [], 1⟩,
         ⟨"2", "Bob", "bob@u.edu", "x", "b.png", "Engineering", "", true, [], 2⟩,
         ⟨"3", "Cyd", "cyd@u.edu", "x", "c.png", "math", "", true, [], 3⟩,
         ⟨"4", "Dee", "dee@u.edu", "x", "d.png", "Math", "", false, [], 4⟩]
        (some "Math") =
      [⟨"1", "Ada", "ada@u.edu", "x", "a.png", "Math", "", true, [], 1⟩,
       ⟨"4", "Dee", "dee@u.edu", "x", "d.png", "Math", "", false, [], 4⟩] := by
  rw [((applyFilter_spec _).1 "Math" (by decide)).1]
  decide

/-! ## The claims about the Profile Editor -/

/-- C9 fails on the code for a request that throws: Save leaves the View state after a
response, successful or not, but when the request throws the editor stays in Edit. -/
theorem save_stays_in_edit_on_throw (backendUrl dToken : String) (profileData : ProfileData)
    (message : String) :
    (updateProfile backendUrl dToken { isEdit := true, profileData := profileData }
        (.throws message)).1.isEdit = true ∧
      (∀ success : Bool,
        (updateProfile backendUrl dToken { isEdit := true, profileData := profileData }
          (.response success message)).1.isEdit = false) := by
  refine ⟨rfl, ?_⟩
  intro success
  cases success <;> rfl

/-- C10: Save answered with `{success: false, message}` returns to View, notifies exactly
that message as an error, triggers no re-fetch and leaves the cached profile data as it
was; a re-fetch is triggered only by a response that reports success. -/
theorem save_rejected (backendUrl dToken : String) (st : EditorState) (message : String) :
    updateProfile backendUrl dToken st (.response false message) =
        ({ isEdit := false, profileData := st.profileData },
         [.postUpdateProfile (backendUrl ++ "/api/professor/update-profile")
            st.profileData.about st.profileData.available dToken,
          .toastError message]) ∧
      Effect.getProfileData ∉ (updateProfile backendUrl dToken st (.response false message)).2 ∧
      (∀ reply : PostOutcome,
        (updateProfile backendUrl dToken st reply).1.profileData = st.profileData ∧
        (Effect.getProfileData ∈ (updateProfile backendUrl dToken st reply).2 ↔
          ∃ m, reply = .response true m)) := by
  refine ⟨rfl, by simp [updateProfile], ?_⟩
  intro reply
  cases reply with
  | response success m =>
    cases success <;> simp [updateProfile]
  | throws m => simp [updateProfile]

/-- Witness for C10: a rejected Save from the Edit state with message "X". -/
theorem save_rejected_witness :
    updateProfile "http://localhost:4000" "dtok" ⟨true, ⟨"bio", true⟩⟩ (.response false "X") =
      (⟨false, ⟨"bio", true⟩⟩,
       [.postUpdateProfile "http://localhost:4000/api/professor/update-profile" "bio" true "dtok",
        .toastError "X"]) := by
  rw [(save_rejected "http://localhost:4000" "dtok" ⟨true, ⟨"bio", true⟩⟩ "X").1]
  decide

/-! ## Order and spacing inside a bucket -/

theorem pairwise_stepInstants (c : Int) (n : Nat) :
    (stepInstants c n).Pairwise (fun (a b : Int) => ∃ k : Nat, 0 < k ∧ b = a + 1800000 * (k : Int)) := by
  induction n generalizing c with
  | zero => exact List.Pairwise.nil
  | succ n ih =>
    simp only [stepInstants]
    refine List.Pairwise.cons ?_ (ih _)
    intro b hb
    obtain ⟨k, -, rfl⟩ := mem_stepInstants hb
    exact ⟨k + 1, by omega, by push_cast; ring⟩

theorem pairwise_slotLoop (b : SlotsBooked) (e c : Int) :
    (slotLoop b e c []).Pairwise
      (fun (s u : Slot) => ∃ k : Nat, 0 < k ∧ u.datetime = s.datetime + 1800000 * (k : Int)) := by
  rw [slotLoop_eq, List.nil_append, List.pairwise_map]
  exact (pairwise_stepInstants c _).filter _

/-- C11: in every output bucket the slots are in strictly increasing chronological
order, a later slot is a positive multiple of 30 minutes after an earlier one, and all
slots lie at or after 08:00 and strictly before 18:00 of one calendar day. -/
theorem bucket_order_and_window (today : Int) (slots_booked : SlotsBooked)
    (bucket : List Slot) (hb : bucket ∈ getAvailableSolts today slots_booked) :
    bucket.Pairwise (fun (s u : Slot) => s.datetime < u.datetime ∧
        ∃ k : Nat, 0 < k ∧ u.datetime = s.datetime + (k : Int) * (30 * msPerMinute)) ∧
      ∃ day : Int, ∀ s ∈ bucket,
        Day s.datetime = day ∧
        day * msPerDay + 8 * msPerHour ≤ s.datetime ∧
        s.datetime < day * msPerDay + 18 * msPerHour ∧
        8 ≤ getHours s.datetime ∧ getHours s.datetime < 18 := by
  obtain ⟨i, hi, rfl⟩ := mem_getAvailableSolts hb
  obtain ⟨h0, h6, -⟩ := mem_weekdayOffsets hi
  constructor
  · have hp : (dayBucket today slots_booked i).Pairwise
        (fun (s u : Slot) => ∃ k : Nat, 0 < k ∧ u.datetime = s.datetime + 1800000 * (k : Int)) := by
      unfold dayBucket
      exact pairwise_slotLoop _ _ _
    refine hp.imp ?_
    intro s u hsu
    obtain ⟨k, hk, he⟩ := hsu
    refine ⟨by omega, k, hk, ?_⟩
    simp only [msPerMinute]
    omega
  · refine ⟨Day today + i, ?_⟩
    intro s hs
    obtain ⟨hlo, hhi⟩ := mem_dayBucket_window h0 h6 hs
    refine ⟨Day_of_window hlo hhi, ?_, ?_, ?_, ?_⟩
    · simp only [msPerDay, msPerHour]; omega
    · simp only [msPerDay, msPerHour]; omega
    · simp only [getHours, HourFromTime, msPerHour]; omega
    · simp only [getHours, HourFromTime, msPerHour]; omega

/-- Witness for C11: today's bucket on June 3 2025 at 09:17:30, whose slots are at
09:17, 09:47, .., 17:47. -/
theorem bucket_order_and_window_witness :
    (dayBucket 1748942250000 [] 0).Pairwise (fun (s u : Slot) => s.datetime < u.datetime ∧
        ∃ k : Nat, 0 < k ∧ u.datetime = s.datetime + (k : Int) * (30 * msPerMinute)) ∧
      ∃ day : Int, ∀ s ∈ dayBucket 1748942250000 [] 0,
        Day s.datetime = day ∧
        day * msPerDay + 8 * msPerHour ≤ s.datetime ∧
        s.datetime < day * msPerDay + 18 * msPerHour ∧
        8 ≤ getHours s.datetime ∧ getHours s.datetime < 18 :=
  bucket_order_and_window 1748942250000 [] (dayBucket 1748942250000 [] 0)
    (dayBucket_mem_getAvailableSolts [] (by decide))

/-! ## Number of buckets -/

theorem length_weekdayOffsets (today : Int) : (weekdayOffsets today).length = 5 := by
  have hw : 0 ≤ WeekDay today ∧ WeekDay today < 7 := by
    simp only [WeekDay]; omega
  simp only [weekdayOffsets, getDay, WeekDay_add_days]
  generalize WeekDay today = w at hw
  obtain ⟨h0, h7⟩ := hw
  interval_cases w <;> decide

/-- C13: the output always has exactly five buckets: the seven offsets hold exactly five
Monday-Friday dates and each of them appends a bucket, empty or not. -/
theorem five_buckets (today : Int) (slots_booked : SlotsBooked) :
    (getAvailableSolts today slots_booked).length = 5 ∧
      (weekdayOffsets today).length = 5 ∧
      getAvailableSolts today slots_booked =
        (weekdayOffsets today).map (dayBucket today slots_booked) := by
  refine ⟨?_, length_weekdayOffsets today, getAvailableSolts_eq today slots_booked⟩
  rw [getAvailableSolts_eq, List.length_map, length_weekdayOffsets]

/-! ## Booking on an empty bucket -/

/-- C14: with a credential, a selected bucket without slots makes `bookAppointment` end
in the uncaught `TypeError` of reading the first slot, before the `try` block: no call at
all is made (no request, no notification, no navigation), whatever the reply would have
been; a non-empty selected bucket always lets the handler run to completion, starting
with the request. -/
theorem booking_on_empty_bucket (token : Option String) (backendUrl profId : String)
    (profSlots : List (List Slot)) (slotIndex : Nat) (slotTime : String) (reply : PostOutcome)
    (ht : truthy token = true) :
    (profSlots[slotIndex]? = some [] →
      bookAppointment token backendUrl profId profSlots slotIndex slotTime reply =
        .error "TypeError") ∧
    (∀ first rest, profSlots[slotIndex]? = some (first :: rest) →
      ∃ effects : List Effect,
        bookAppointment token backendUrl profId profSlots slotIndex slotTime reply =
          .ok (Effect.postBookAppointment (backendUrl ++ "/api/user/book-appointment") profId
            (submitterSlotDate first.datetime) slotTime (token.getD "") :: effects)) := by
  constructor
  · intro he
    simp [bookAppointment, ht, he]
  · intro first rest he
    cases reply with
    | response success message =>
      cases success
      · exact ⟨_, by simp [bookAppointment, ht, he]; rfl⟩
      · exact ⟨_, by simp [bookAppointment, ht, he]; rfl⟩
    | throws message =>
      exact ⟨_, by simp [bookAppointment, ht, he]; rfl⟩

/-- Witness for C14: on Tuesday June 3 2025 at 18:00 the default bucket index 0 selects
today's empty bucket, and booking with a credential ends in the `TypeError`. -/
theorem booking_on_empty_bucket_witness :
    (getAvailableSolts 1748973600000 [])[0]? = some [] ∧
      bookAppointment (some "tok") "http://localhost:4000" "prof1"
        (getAvailableSolts 1748973600000 []) 0 "" (.response true "Appointment Booked") =
        .error "TypeError" := by
  have he : (getAvailableSolts 1748973600000 [])[0]? = some [] := by
    have hd : dayBucket 1748973600000 [] 0 = [] := by
      rw [dayBucket_today, slotLoop_eq]; decide
    have hh := @head_getAvailableSolts 1748973600000 [] (by decide)
    rw [hd] at hh
    rw [← List.head?_eq_getElem?]
    exact hh
  exact ⟨he, (booking_on_empty_bucket (some "tok") "http://localhost:4000" "prof1"
    (getAvailableSolts 1748973600000 []) 0 "" (.response true "Appointment Booked")
    (by decide)).1 he⟩

/-! ## The stored key against the keys of the window -/

theorem lookup_insertBooked_of_ne (b : SlotsBooked) (slotDate slotTime k : String)
    (h : k ≠ slotDate) : (insertBooked b slotDate slotTime).lookup k = b.lookup k := by
  induction b with
  | nil =>
    have hk : (k == slotDate) = false := by simpa using h
    simp [insertBooked, List.lookup, hk]
  | cons p rest ih =>
    obtain ⟨key, times⟩ := p
    unfold insertBooked
    by_cases hc : key = slotDate
    · subst hc
      have hk : (k == key) = false := by simpa using h
      simp [List.lookup, hk]
    · rw [if_neg hc]
      by_cases hkk : (k == key) = true
      · simp [List.lookup, hkk]
      · have hkf : (k == key) = false := by simpa using hkk
        simp [List.lookup, hkf, ih]

theorem underscore_split (a a2 r r2 : List Char) (ha : ∀ c ∈ a, c ≠ '_')
    (ha2 : ∀ c ∈ a2, c ≠ '_') (h : a ++ '_' :: r = a2 ++ '_' :: r2) : a = a2 ∧ r = r2 := by
  induction a generalizing a2 with
  | nil =>
    cases a2 with
    | nil => simpa using h
    | cons x xs =>
      simp only [List.nil_append, List.cons_append, List.cons.injEq] at h
      exact absurd h.1.symm (ha2 x (List.mem_cons_self _ _))
  | cons y ys ih =>
    cases a2 with
    | nil =>
      simp only [List.nil_append, List.cons_append, List.cons.injEq] at h
      exact absurd h.1 (ha y (List.mem_cons_self _ _))
    | cons x xs =>
      simp only [List.cons_append, List.cons.injEq] at h
      obtain ⟨e1, e2⟩ := ih xs (fun c hc => ha c (List.mem_cons_of_mem _ hc))
        (fun c hc => ha2 c (List.mem_cons_of_mem _ hc)) h.2
      exact ⟨by rw [h.1, e1], e2⟩

theorem toString_small_no_underscore (d : Int) (h0 : 0 ≤ d) (h1 : d ≤ 31) :
    ∀ c ∈ (toString d).data, c ≠ '_' := by
  interval_cases d <;> decide

theorem toString_small_inj (a b : Int) (ha0 : 0 ≤ a) (ha1 : a ≤ 31) (hb0 : 0 ≤ b)
    (hb1 : b ≤ 31) (h : toString a = toString b) : a = b := by
  have key : ∀ d : Int, 0 ≤ d → d ≤ 31 →
      (toString d).data.foldl (fun acc c => 10 * acc + (c.toNat - 48)) 0 = d.toNat := by
    intro d h0 h1
    interval_cases d <;> decide
  have e1 := key a ha0 ha1
  have e2 := key b hb0 hb1
  rw [h, e2] at e1
  omega

theorem key_fields_eq (d m y d2 m2 y2 : Int) (hd : 0 ≤ d ∧ d ≤ 31) (hd2 : 0 ≤ d2 ∧ d2 ≤ 31)
    (hm : 0 ≤ m ∧ m ≤ 31) (hm2 : 0 ≤ m2 ∧ m2 ≤ 31)
    (h : toString d ++ "_" ++ toString m ++ "_" ++ toString y =
      toString d2 ++ "_" ++ toString m2 ++ "_" ++ toString y2) : d = d2 ∧ m = m2 := by
  have hdata := congrArg String.data h
  simp only [String.data_append, List.append_assoc] at hdata
  simp only [List.singleton_append] at hdata
  obtain ⟨e1, r1⟩ := underscore_split _ _ _ _ (toString_small_no_underscore d hd.1 hd.2)
    (toString_small_no_underscore d2 hd2.1 hd2.2) hdata
  obtain ⟨e2, -⟩ := underscore_split _ _ _ _ (toString_small_no_underscore m hm.1 hm.2)
    (toString_small_no_underscore m2 hm2.1 hm2.2) r1
  exact ⟨toString_small_inj d d2 hd.1 hd.2 hd2.1 hd2.2 (String.ext e1),
    toString_small_inj m m2 hm.1 hm.2 hm2.1 hm2.2 (String.ext e2)⟩

theorem getDate_ne_of_near {s t : Int} (hne : Day s ≠ Day t) (hn : Day s - Day t ≤ 6)
    (hn2 : Day t - Day s ≤ 6) : getDate s ≠ getDate t := by
  rcases lt_or_gt_of_ne hne with hlt | hgt
  · have hd : Day (s + (Day t - Day s) * msPerDay) = Day t := by
      rw [Day_add_days]; ring
    have := getDate_add_days_ne s (Day t - Day s) (by omega) (by omega)
    rw [(civil_congr hd).1] at this
    exact fun h => this h.symm
  · have hd : Day (t + (Day s - Day t) * msPerDay) = Day s := by
      rw [Day_add_days]; ring
    have := getDate_add_days_ne t (Day s - Day t) (by omega) (by omega)
    rw [(civil_congr hd).1] at this
    exact this

theorem window_key_ne_stored_key {s t : Int} (hn : Day s - Day t ≤ 6)
    (hn2 : Day t - Day s ≤ 6) : generatorSlotDate t ≠ submitterSlotDate s := by
  intro h
  have hds := DateFromTime_range s
  have hdt := DateFromTime_range t
  have hms := MonthFromTime_range s
  have hmt := MonthFromTime_range t
  simp only [generatorSlotDate, submitterSlotDate] at h
  obtain ⟨e1, e2⟩ := key_fields_eq _ _ _ _ _ _ ⟨by simp only [getDate]; omega, by
      simp only [getDate]; omega⟩
    ⟨by simp only [getDate]; omega, by simp only [getDate]; omega⟩
    ⟨by simp only [getMonth]; omega, by simp only [getMonth]; omega⟩
    ⟨by simp only [getMonth]; omega, by simp only [getMonth]; omega⟩ h
  by_cases hday : Day s = Day t
  · have := (civil_congr hday).2.1
    omega
  · exact getDate_ne_of_near hday hn hn2 e1.symm

theorem slotLoop_congr (b b2 : SlotsBooked) (e c : Int)
    (h : ∀ t, c ≤ t → t < e → offered b2 t = offered b t) :
    slotLoop b2 e c [] = slotLoop b e c [] := by
  rw [slotLoop_eq, slotLoop_eq]
  have hf : (stepInstants c (stepCount c e)).filter (offered b2) =
      (stepInstants c (stepCount c e)).filter (offered b) := by
    apply List.filter_congr
    intro t ht
    obtain ⟨k, hk, rfl⟩ := mem_stepInstants ht
    apply h
    · omega
    · unfold stepCount at hk; omega
  rw [hf]

theorem dayBucket_congr (today : Int) (b b2 : SlotsBooked) (i : Int) (h0 : 0 ≤ i) (h6 : i ≤ 6)
    (h : ∀ t, Day t = Day today + i → offered b2 t = offered b t) :
    dayBucket today b2 i = dayBucket today b i := by
  rcases (by omega : i = 0 ∨ 1 ≤ i) with rfl | h1
  · rw [dayBucket_today, dayBucket_today]
    apply slotLoop_congr
    intro t hc he
    apply h
    have hlo : Day today * 86400000 + 28800000 ≤ t := by
      by_cases hh : getHours today < 8
      · rw [if_pos hh] at hc; exact hc
      · rw [if_neg hh] at hc
        simp only [getHours, HourFromTime, msPerHour] at hh
        simp only [Day, msPerDay] at he ⊢
        omega
    rw [add_zero]
    exact Day_of_window hlo he
  · rw [dayBucket_later today b i h1 h6, dayBucket_later today b2 i h1 h6]
    apply slotLoop_congr
    intro t hc he
    exact h t (Day_of_window hc he)

theorem offered_congr {b b2 : SlotsBooked} {t : Int}
    (h : b2.lookup (generatorSlotDate t) = b.lookup (generatorSlotDate t)) :
    offered b2 t = offered b t := by
  simp only [offered, isSlotAvailable, h]

theorem getAvailableSolts_congr (today : Int) (b b2 : SlotsBooked)
    (h : ∀ i t, 0 ≤ i → i ≤ 6 → Day t = Day today + i →
      b2.lookup (generatorSlotDate t) = b.lookup (generatorSlotDate t)) :
    getAvailableSolts today b2 = getAvailableSolts today b := by
  rw [getAvailableSolts_eq, getAvailableSolts_eq]
  apply List.map_congr_left
  intro i hi
  obtain ⟨h0, h6, -⟩ := mem_weekdayOffsets hi
  exact dayBucket_congr today b b2 i h0 h6 (fun t ht => offered_congr (h i t h0 h6 ht))

/-! ## Booking and the next run of the Slot Generator -/

/-- C12: for a slot the Slot Generator offers, the date key the Booking Submitter derives
(zero-indexed month) equals no date key the generator builds for a day of the seven-day
window; so a booked-slots map changed only under that key, in particular the map with the
slot's time string inserted under it, gives the same output for the same `now`, and the
slot is still offered. -/
theorem booking_does_not_hide_slot (today : Int) (slots_booked : SlotsBooked)
    (bucket : List Slot) (slot : Slot)
    (hb : bucket ∈ getAvailableSolts today slots_booked) (hs : slot ∈ bucket) :
    (∀ i t : Int, 0 ≤ i → i ≤ 6 → Day t = Day today + i →
        generatorSlotDate t ≠ submitterSlotDate slot.datetime) ∧
      (∀ first ∈ bucket.head?, submitterSlotDate first.datetime =
        submitterSlotDate slot.datetime) ∧
      (∀ updated : SlotsBooked,
        (∀ k, k ≠ submitterSlotDate slot.datetime →
          updated.lookup k = slots_booked.lookup k) →
        getAvailableSolts today updated = getAvailableSolts today slots_booked) ∧
      getAvailableSolts today
          (insertBooked slots_booked (submitterSlotDate slot.datetime) slot.time) =
        getAvailableSolts today slots_booked ∧
      ∃ bucket2 ∈ getAvailableSolts today
          (insertBooked slots_booked (submitterSlotDate slot.datetime) slot.time),
        slot ∈ bucket2 := by
  obtain ⟨j, hj, rfl⟩ := mem_getAvailableSolts hb
  obtain ⟨hj0, hj6, -⟩ := mem_weekdayOffsets hj
  obtain ⟨hlo, hhi⟩ := mem_dayBucket_window hj0 hj6 hs
  have hday : Day slot.datetime = Day today + j := Day_of_window hlo hhi
  have hkey : ∀ i t : Int, 0 ≤ i → i ≤ 6 → Day t = Day today + i →
      generatorSlotDate t ≠ submitterSlotDate slot.datetime := by
    intro i t hi0 hi6 ht
    exact window_key_ne_stored_key (by omega) (by omega)
  have hgen : ∀ updated : SlotsBooked,
      (∀ k, k ≠ submitterSlotDate slot.datetime →
        updated.lookup k = slots_booked.lookup k) →
      getAvailableSolts today updated = getAvailableSolts today slots_booked := by
    intro updated hu
    exact getAvailableSolts_congr today slots_booked updated
      (fun i t hi0 hi6 ht => hu _ (hkey i t hi0 hi6 ht))
  have hins := hgen (insertBooked slots_booked (submitterSlotDate slot.datetime) slot.time)
    (fun k hk => lookup_insertBooked_of_ne _ _ _ _ hk)
  refine ⟨hkey, ?_, hgen, hins, ?_⟩
  · intro first hf
    have hfm : first ∈ dayBucket today slots_booked j := List.mem_of_mem_head? hf
    obtain ⟨hlo2, hhi2⟩ := mem_dayBucket_window hj0 hj6 hfm
    have hd2 : Day first.datetime = Day slot.datetime := by
      rw [Day_of_window hlo2 hhi2, hday]
    obtain ⟨c1, c2, c3⟩ := civil_congr hd2
    simp only [submitterSlotDate, c1, c2, c3]
  · exact ⟨dayBucket today slots_booked j, by rw [hins]; exact hb, hs⟩

/-- Witness for C12: on June 3 2025 at 07:00 the 08:00 AM slot is offered; booking it
stores "08:00 AM" under `3_5_2025`, and the generator, which looks under `3_6_2025`,
still returns the same output. -/
theorem booking_does_not_hide_slot_witness :
    (⟨1748937600000, "08:00 AM"⟩ : Slot) ∈ dayBucket 1748934000000 [] 0 ∧
      insertBooked [] (submitterSlotDate 1748937600000) "08:00 AM" =
        [("3_5_2025", ["08:00 AM"])] ∧
      getAvailableSolts 1748934000000 [("3_5_2025", ["08:00 AM"])] =
        getAvailableSolts 1748934000000 [] := by
  have hb : dayBucket 1748934000000 [] 0 ∈ getAvailableSolts 1748934000000 [] :=
    dayBucket_mem_getAvailableSolts _ (by decide)
  have hs : (⟨1748937600000, "08:00 AM"⟩ : Slot) ∈ dayBucket 1748934000000 [] 0 := by
    rw [dayBucket_full_day _ _ 0 (by decide) (by decide) (Or.inr (by decide))]
    decide
  have hi : insertBooked [] (submitterSlotDate 1748937600000) "08:00 AM" =
      [("3_5_2025", ["08:00 AM"])] := by decide
  have h := (booking_does_not_hide_slot 1748934000000 [] _ ⟨1748937600000, "08:00 AM"⟩
    hb hs).2.2.2.1
  rw [hi] at h
  exact ⟨hs, hi, h⟩

end OfficeHours
